import Mathlib

/-!
Verification development for the embedup-rs update agent.

The Rust sources (src/main.rs, src/api_client.rs, src/config.rs,
src/error.rs) are shallowly embedded below: filesystem and network
effects become explicit environment records and action traces, machine
integers become Int/Nat, and fallible operations return Except.
-/

/-- Error enum from src/error.rs.  The listing of error.rs omits the
TimeoutError variant, but src/api_client.rs line 202 constructs
UpdateError::TimeoutError and src/main.rs line 223 matches on it, so the
variant is part of the enum; it carries no payload at either use site.
VersionReadError is the variant carrying the From instance for
std::io::Error, so io errors propagated with the question-mark operator
become VersionReadError. -/
inductive UpdateError where
  | ConfigError (s : String)
  | VersionReadError (s : String)
  | TokenReadError (s : String)
  | VersionFormatError (s : String)
  | ApiClientError (s : String)
  | ApiRequestFailed (status : Nat) (message : String)
  | NoUpdateAvailable
  | DownloadError (s : String)
  | HeadError (s : String)
  | DecryptionError (s : String)
  | EncryptionError (s : String)
  | ArchiveError (s : String)
  | ScriptError (s : String)
  | FileSystemError (s : String)
  | HexError (s : String)
  | FileIOError (s : String)
  | TempFileError (s : String)
  | TimeoutError
deriving DecidableEq, Repr

/-!
Archive extraction model (unzip_update, src/main.rs lines 15-63).

A relative path is a list of components as produced by
std::path::Path::components: normal names, parent-directory segments and
current-directory segments.  Root/prefix components and NUL bytes in the
raw entry name are recorded as flags on the entry name, since the zip
crate's ZipFile::enclosed_name rejects the whole name when they occur.
-/

/-- Path component in the sense of std::path::Component (relative part). -/
inductive Comp where
  | normal (s : String)
  | parent
  | curDir
deriving DecidableEq, Repr

/-- Raw name of one zip archive entry, with the attributes unzip_update
consults: whether the raw string contains a NUL byte, whether the path has
a root or prefix component, the relative components, whether the entry is
a directory entry, and the optional recorded unix mode. -/
structure EntryName where
  hasNul : Bool
  isAbs : Bool
  comps : List Comp
  isDir : Bool
  mode : Option Nat
deriving DecidableEq, Repr

/-- Depth bookkeeping of ZipFile::enclosed_name (zip crate): walk the
components keeping the current depth; a parent segment at depth zero makes
the whole name unacceptable, root/prefix components are handled by the
caller. Returns the final depth when the walk succeeds. -/
def depthCheck : List Comp → Nat → Option Nat
  | [], d => some d
  | Comp.normal _ :: rest, d => depthCheck rest (d + 1)
  | Comp.parent :: rest, d =>
    match d with
    | 0 => none
    | d + 1 => depthCheck rest d
  | Comp.curDir :: rest, d => depthCheck rest d

/-- ZipFile::enclosed_name as used by unzip_update (src/main.rs line 28):
the entry path is returned only when the raw name has no NUL byte, no
root/prefix component, and its parent segments never escape above the
start of the relative path. -/
def enclosedName (e : EntryName) : Option (List Comp) :=
  if e.hasNul then none
  else if e.isAbs then none
  else
    match depthCheck e.comps 0 with
    | some _ => some e.comps
    | none => none

/-- Kind of filesystem mutation performed during extraction. -/
inductive FsOp where
  | mkdirAll
  | createFile
  | setPerms
deriving DecidableEq, Repr

/-- One filesystem mutation during extraction: an operation on the path
obtained by pushing rel onto the destination root. -/
structure FsTarget where
  op : FsOp
  rel : List Comp
deriving DecidableEq, Repr

/-- Filesystem mutations for one archive entry (loop body of unzip_update,
src/main.rs lines 24-57): an entry whose enclosed_name is rejected is
skipped with no action; a directory entry gets create_dir_all at its out
path; a file entry gets create_dir_all at the parent of its out path
(modelled unconditionally, since the existence test at line 41 only
suppresses the call) followed by File::create at the out path; finally,
when the entry records a unix mode, set_permissions is applied to the out
path. -/
def entryActions (e : EntryName) : List FsTarget :=
  match enclosedName e with
  | none => []
  | some cs =>
    (if e.isDir then
      [⟨FsOp.mkdirAll, cs⟩]
    else
      [⟨FsOp.mkdirAll, cs.dropLast⟩, ⟨FsOp.createFile, cs⟩]) ++
    (match e.mode with
     | some _ => [⟨FsOp.setPerms, cs⟩]
     | none => [])

/-- One step of the extraction loop: reading the entry at this index from
the archive either succeeds with the entry name or fails (by_index error,
src/main.rs line 25). -/
structure ZipEntryStep where
  readOk : Bool
  entry : EntryName
deriving DecidableEq, Repr

/-- Outcome of opening the archive in unzip_update: File::open can fail
(line 16, FileSystemError), ZipArchive::new can fail (line 19,
ArchiveError), or the archive opens with a list of entry steps. -/
inductive ZipSrc where
  | openFail
  | badArchive
  | entries (es : List ZipEntryStep)
deriving DecidableEq, Repr

/-- Extraction loop of unzip_update: process the entries in order,
accumulating filesystem actions; a by_index failure aborts the loop with
ArchiveError, keeping the actions already performed. -/
def unzipSteps : List ZipEntryStep → List FsTarget →
    Except UpdateError Unit × List FsTarget
  | [], acc => (Except.ok (), acc)
  | st :: rest, acc =>
    if st.readOk then unzipSteps rest (acc ++ entryActions st.entry)
    else (Except.error (UpdateError.ArchiveError "Failed to extract zipped files"), acc)

/-- unzip_update (src/main.rs lines 15-63): returns the function result
together with the trace of filesystem mutations, each given as a path
relative to the destination root o.  Write-path io failures inside the
loop use unwrap in the source and panic rather than return an error; they
are not part of the Except result. -/
def unzip_update (z : ZipSrc) : Except UpdateError Unit × List FsTarget :=
  match z with
  | ZipSrc.openFail =>
    (Except.error (UpdateError.FileSystemError "Failed to open zipped files"), [])
  | ZipSrc.badArchive =>
    (Except.error (UpdateError.ArchiveError "Failed to extract zipped files"), [])
  | ZipSrc.entries es => unzipSteps es []

/-- Filesystem path resolution: starting from an absolute directory given
as its list of plain components, follow relative components; a normal name
descends, a parent segment ascends (failing on an attempt to ascend above
the filesystem representation), a current-directory segment is a no-op.
The result is the resolved absolute path. -/
def resolvePath : List String → List Comp → Option (List String)
  | acc, [] => some acc
  | acc, Comp.normal s :: rest => resolvePath (acc ++ [s]) rest
  | acc, Comp.parent :: rest =>
    if acc = [] then none else resolvePath acc.dropLast rest
  | acc, Comp.curDir :: rest => resolvePath acc rest

theorem depthCheck_append (xs ys : List Comp) :
    ∀ k, depthCheck (xs ++ ys) k =
      (depthCheck xs k).bind (fun d => depthCheck ys d) := by
  induction xs with
  | nil => intro k; simp [depthCheck]
  | cons x rest ih =>
    intro k
    cases x with
    | normal s => simpa [depthCheck] using ih (k + 1)
    | parent =>
      cases k with
      | zero => simp [depthCheck]
      | succ d => simpa [depthCheck] using ih d
    | curDir => simpa [depthCheck] using ih k

theorem dropLast_append_of_ne_nil {α : Type} (xs : List α) :
    ∀ ys : List α, ys ≠ [] → (xs ++ ys).dropLast = xs ++ ys.dropLast := by
  induction xs with
  | nil => intro ys _; rfl
  | cons x rest ih =>
    intro ys hy
    have hne : rest ++ ys ≠ [] := by
      intro h
      rcases List.append_eq_nil.mp h with ⟨_, h2⟩
      exact hy h2
    calc ((x :: rest) ++ ys).dropLast
        = x :: (rest ++ ys).dropLast := by
          simp [List.dropLast_cons_of_ne_nil hne]
      _ = x :: (rest ++ ys.dropLast) := by rw [ih ys hy]
      _ = (x :: rest) ++ ys.dropLast := rfl

/-- Core safety lemma: if the depth bookkeeping of enclosed_name accepts a
component list starting from depth k, then resolving those components from
any directory that lies at least k levels below a prefix pre never ascends
above pre. -/
theorem resolvePath_keeps_prefix (cs : List Comp) :
    ∀ (k : Nat) (pre suf : List String), suf.length = k →
      (depthCheck cs k).isSome →
      ∃ suf2, resolvePath (pre ++ suf) cs = some (pre ++ suf2) := by
  induction cs with
  | nil =>
    intro k pre suf _ _
    exact ⟨suf, rfl⟩
  | cons c rest ih =>
    intro k pre suf hlen hsome
    cases c with
    | normal s =>
      have hsome2 : (depthCheck rest (k + 1)).isSome := by
        simpa [depthCheck] using hsome
      have hlen2 : (suf ++ [s]).length = k + 1 := by simp [hlen]
      obtain ⟨suf2, hres⟩ := ih (k + 1) pre (suf ++ [s]) hlen2 hsome2
      refine ⟨suf2, ?_⟩
      simpa [resolvePath, List.append_assoc] using hres
    | parent =>
      cases k with
      | zero => simp [depthCheck] at hsome
      | succ d =>
        have hsome2 : (depthCheck rest d).isSome := by
          simpa [depthCheck] using hsome
        have hsufne : suf ≠ [] := by
          intro h; rw [h] at hlen; simp at hlen
        have haccne : pre ++ suf ≠ [] := by
          intro h
          rcases List.append_eq_nil.mp h with ⟨_, h2⟩
          exact hsufne h2
        have hlen2 : suf.dropLast.length = d := by
          rw [List.length_dropLast, hlen]; omega
        obtain ⟨suf2, hres⟩ := ih d pre suf.dropLast hlen2 hsome2
        refine ⟨suf2, ?_⟩
        rw [show resolvePath (pre ++ suf) (Comp.parent :: rest)
              = resolvePath (pre ++ suf).dropLast rest by
            simp [resolvePath, haccne]]
        rw [dropLast_append_of_ne_nil pre suf hsufne]
        exact hres
    | curDir =>
      have hsome2 : (depthCheck rest k).isSome := by
        simpa [depthCheck] using hsome
      obtain ⟨suf2, hres⟩ := ih k pre suf hlen hsome2
      exact ⟨suf2, by simpa [resolvePath] using hres⟩

theorem depthCheck_dropLast_isSome (cs : List Comp)
    (h : (depthCheck cs 0).isSome) : (depthCheck cs.dropLast 0).isSome := by
  rcases List.eq_nil_or_concat cs with hnil | ⟨ys, y, hcons⟩
  · rw [hnil]; simp [depthCheck]
  · subst hcons
    rw [List.concat_eq_append] at h ⊢
    rw [depthCheck_append] at h
    rw [List.dropLast_concat]
    cases hd : depthCheck ys 0 with
    | none => rw [hd] at h; simp at h
    | some d => simp

/-- Membership in the extraction-loop trace comes from the accumulator or
from the per-entry actions of some processed entry. -/
theorem unzipSteps_mem (es : List ZipEntryStep) :
    ∀ (acc : List FsTarget) (t : FsTarget), t ∈ (unzipSteps es acc).2 →
      t ∈ acc ∨ ∃ st ∈ es, t ∈ entryActions st.entry := by
  induction es with
  | nil =>
    intro acc t ht
    exact Or.inl (by simpa [unzipSteps] using ht)
  | cons st rest ih =>
    intro acc t ht
    by_cases hr : st.readOk
    · have ht2 : t ∈ (unzipSteps rest (acc ++ entryActions st.entry)).2 := by
        simpa [unzipSteps, hr] using ht
      rcases ih (acc ++ entryActions st.entry) t ht2 with hacc | ⟨st2, hst2, hmem⟩
      · rcases List.mem_append.mp hacc with h1 | h2
        · exact Or.inl h1
        · exact Or.inr ⟨st, List.mem_cons_self st rest, h2⟩
      · exact Or.inr ⟨st2, List.mem_cons_of_mem st hst2, hmem⟩
    · have : t ∈ acc := by simpa [unzipSteps, hr] using ht
      exact Or.inl this

theorem enclosedName_depth {e : EntryName} {cs : List Comp}
    (hen : enclosedName e = some cs) : (depthCheck cs 0).isSome := by
  unfold enclosedName at hen
  by_cases h1 : e.hasNul
  · simp [h1] at hen
  · by_cases h2 : e.isAbs
    · simp [h1, h2] at hen
    · simp only [h1, h2, Bool.false_eq_true, if_false] at hen
      cases hd : depthCheck e.comps 0 with
      | none => rw [hd] at hen; simp at hen
      | some d =>
        rw [hd] at hen
        simp only [Option.some.injEq] at hen
        subst hen
        simp [hd]

theorem entryActions_depth {e : EntryName} {t : FsTarget}
    (ht : t ∈ entryActions e) : (depthCheck t.rel 0).isSome := by
  obtain ⟨hn, ab, comps, dirFlag, modeOpt⟩ := e
  unfold entryActions at ht
  cases hen : enclosedName ⟨hn, ab, comps, dirFlag, modeOpt⟩ with
  | none => rw [hen] at ht; simp at ht
  | some cs =>
    rw [hen] at ht
    have hcs : (depthCheck cs 0).isSome := enclosedName_depth hen
    have hdrop := depthCheck_dropLast_isSome cs hcs
    cases dirFlag with
    | false =>
      cases modeOpt with
      | none =>
        simp at ht
        rcases ht with rfl | rfl
        · exact hdrop
        · exact hcs
      | some m =>
        simp at ht
        rcases ht with rfl | rfl | rfl
        · exact hdrop
        · exact hcs
        · exact hcs
    | true =>
      cases modeOpt with
      | none =>
        simp at ht
        rcases ht with rfl
        exact hcs
      | some m =>
        simp at ht
        rcases ht with rfl | rfl
        · exact hcs
        · exact hcs

/-!
Resumable downloader model (ApiClient::download_update,
src/api_client.rs lines 83-214).
-/

/-- Decimal digit value of a character, as in Rust integer parsing. -/
def digitVal (c : Char) : Option Nat :=
  if c.isDigit then some (c.toNat - 48) else none

/-- Accumulate decimal digits left to right; fails on a non-digit. -/
def parseDigitsAux : List Char → Nat → Option Nat
  | [], acc => some acc
  | c :: cs, acc =>
    match digitVal c with
    | some d => parseDigitsAux cs (acc * 10 + d)
    | none => none

/-- Rust str::parse::<u64>: optional leading plus sign, then at least one
decimal digit, value bounded by the u64 range. -/
def rustParseU64 (s : String) : Option Nat :=
  match s.data with
  | [] => none
  | c :: cs =>
    let ds := if c = '+' then cs else c :: cs
    match ds with
    | [] => none
    | _ =>
      match parseDigitsAux ds 0 with
      | some n => if n ≤ 18446744073709551615 then some n else none
      | none => none

/-- Rust str::parse::<i32>: optional sign, then at least one decimal
digit, value bounded by the i32 range. -/
def rustParseI32 (s : String) : Option Int :=
  match s.data with
  | [] => none
  | c :: cs =>
    let signAndDigits : Bool × List Char :=
      if c = '-' then (true, cs)
      else if c = '+' then (false, cs)
      else (false, c :: cs)
    match signAndDigits.2 with
    | [] => none
    | _ =>
      match parseDigitsAux signAndDigits.2 0 with
      | some n =>
        if signAndDigits.1 then
          if n ≤ 2147483648 then some (-(n : Int)) else none
        else
          if n ≤ 2147483647 then some (n : Int) else none
      | none => none

/-- Substring test used for the Accept-Ranges header check
(val.to_str contains "bytes"). -/
def containsBytesToken (s : String) : Bool :=
  (List.range (s.length)).any (fun i => ((s.drop i).take 5) = "bytes")

/-- Response to the HEAD metadata probe: its status classification and the
two headers download_update reads.  A header is an Option String; a value
that is absent or not convertible to a string is none. -/
structure HeadResp where
  statusSuccess : Bool
  xContentLength : Option String
  acceptRanges : Option String
deriving DecidableEq, Repr

deriving instance DecidableEq for Except

/-- Response to the GET fetch: numeric HTTP status and the body stream,
each item being a chunk of bytes or a transport error rendered as the
error's display text. -/
structure GetResp where
  status : Nat
  body : List (Except String (List Nat))
deriving DecidableEq, Repr

/-- Environment of one download_update call: outcome of the parent
directory preparation, the HEAD response (none means the send itself
failed with a reqwest error), the prior state of the destination file, the
GET response (none means the send itself failed), whether the file open
and the chunk writes succeed, and whether DEBUG-level logging is enabled
for the callsite.  The last flag matters because the tracing macros
evaluate their field arguments only when the event is enabled, so the
unwrap inside the debug log at src/api_client.rs line 122 runs only then;
the filter installed at src/main.rs lines 256-258 (embedded_updater=info)
leaves DEBUG disabled by default. -/
structure DlEnv where
  parentOk : Bool
  headResp : Option HeadResp
  destExists : Bool
  metadataOk : Bool
  destLen : Nat
  getResp : Option GetResp
  openOk : Bool
  writeOk : Bool
  debugLogEnabled : Bool
deriving DecidableEq, Repr

/-- Mode requested on the destination file when it is opened:
truncate + write for a 200 response, append otherwise
(src/api_client.rs lines 181-186). -/
inductive OpenMode where
  | truncateMode
  | appendMode
deriving DecidableEq, Repr

/-- Result of a download_update call: normal return, error return, or a
panic (the unwrap of total_size_opt at line 122). -/
inductive DlOutcome where
  | ok
  | err (e : UpdateError)
  | panicked
deriving DecidableEq, Repr

/-- Observable trace of one download_update call: the outcome, whether the
GET fetch was issued, whether a Range header was attached, the open mode
chosen for the destination file (none when the file was never opened), and
the chunks written to it. -/
structure DlTrace where
  outcome : DlOutcome
  fetchIssued : Bool
  rangeRequested : Bool
  openMode : Option OpenMode
  written : List (List Nat)
deriving DecidableEq, Repr

/-- Classification of a mid-stream chunk error (src/api_client.rs lines
200-206): the display text equal to the reqwest body-decoding message maps
to TimeoutError, anything else to DownloadError. -/
def classifyStreamError (msg : String) : UpdateError :=
  if msg = "error decoding response body" then UpdateError.TimeoutError
  else UpdateError.DownloadError ("Error reading download stream: " ++ msg)

/-- Streaming loop of download_update (lines 199-210): chunks are written
in order; a chunk error aborts with its classification; a write failure
aborts with FileIOError. -/
def streamLoop : List (Except String (List Nat)) → Bool → List (List Nat) →
    DlOutcome × List (List Nat)
  | [], _, acc => (DlOutcome.ok, acc)
  | Except.error msg :: _, _, acc => (DlOutcome.err (classifyStreamError msg), acc)
  | Except.ok chunk :: rest, writeOk, acc =>
    if writeOk then streamLoop rest writeOk (acc ++ [chunk])
    else (DlOutcome.err (UpdateError.FileIOError "Failed to write chunk to file"), acc)

/-- Total size parsed from the probe response: the x-content-length header
value parsed as u64 (lines 110-114); parse or conversion failure gives
none. -/
def totalSizeOf (h : HeadResp) : Option Nat :=
  h.xContentLength.bind rustParseU64

/-- Range support flag from the probe response (lines 116-118); computed
and logged by the source but not used for any decision. -/
def supportsRangeOf (h : HeadResp) : Bool :=
  match h.acceptRanges with
  | some v => containsBytesToken v
  | none => false

/-- Fetch-and-stream tail of download_update (src/api_client.rs lines
161-213): issue the GET (the Range header is attached when the resume
offset is positive), branch on the response status, open the destination
file and stream the body. -/
def fetchAndStream (env : DlEnv) (currentOffset : Nat) : DlTrace :=
  match env.getResp with
  | none => ⟨DlOutcome.err (UpdateError.ApiClientError "get send failed"),
      true, 0 < currentOffset, none, []⟩
  | some g =>
    if !(200 ≤ g.status && g.status < 300) then
      ⟨DlOutcome.err (UpdateError.DownloadError
        "Download request failed with status"), true, 0 < currentOffset, none, []⟩
    else
      let mode := if g.status = 200 then OpenMode.truncateMode
        else OpenMode.appendMode
      if !env.openOk then
        ⟨DlOutcome.err (UpdateError.FileIOError
          "Failed to create destination file"), true, 0 < currentOffset,
          some mode, []⟩
      else
        let res := streamLoop g.body env.writeOk []
        ⟨res.1, true, 0 < currentOffset, some mode, res.2⟩

/-- ApiClient::download_update (src/api_client.rs lines 83-214), step by
step: parent directory preparation, HEAD probe, debug log whose field
arguments — including the unwrap of the optional total size at line 122 —
are evaluated only when DEBUG-level logging is enabled for the callsite
(a panic exactly when it is enabled and the size header is missing or
unparseable; otherwise the function proceeds with the size unknown),
resume offset from the existing destination file, the already-complete
short-circuit (which only applies when the total size is known), the GET
fetch with a Range header when the offset is positive, status branching
into truncate/append open modes, and the streaming loop. -/
def download_update (env : DlEnv) : DlTrace :=
  if !env.parentOk then
    ⟨DlOutcome.err (UpdateError.FileSystemError
      "Failed to create parent directory for download"), false, false, none, []⟩
  else
    match env.headResp with
    | none => ⟨DlOutcome.err (UpdateError.ApiClientError "head send failed"),
        false, false, none, []⟩
    | some h =>
      if !h.statusSuccess then
        ⟨DlOutcome.err (UpdateError.HeadError "Head request failed with status"),
          false, false, none, []⟩
      else if env.debugLogEnabled && (totalSizeOf h).isNone then
        ⟨DlOutcome.panicked, false, false, none, []⟩
      else if env.destExists && !env.metadataOk then
        ⟨DlOutcome.err (UpdateError.FileSystemError
          "Failed to get metadata for existing file"), false, false, none, []⟩
      else
        let currentOffset := if env.destExists then env.destLen else 0
        match totalSizeOf h with
        | some totalSize =>
          if totalSize ≤ currentOffset && 0 < totalSize then
            ⟨DlOutcome.ok, false, false, none, []⟩
          else
            fetchAndStream env currentOffset
        | none => fetchAndStream env currentOffset

/-!
Local version store (src/config.rs lines 52-62) and its use in main
(src/main.rs line 284).
-/

/-- State of the persisted version file as get_current_version can observe
it: missing, present but unreadable, or readable with given text. -/
inductive VersionFile where
  | missing
  | unreadable
  | content (s : String)
deriving DecidableEq, Repr

/-- Rust str::trim: remove leading and trailing whitespace characters. -/
def rustTrim (s : String) : String :=
  ⟨((s.data.dropWhile Char.isWhitespace).reverse.dropWhile
      Char.isWhitespace).reverse⟩

/-- get_current_version (src/config.rs lines 52-62): a missing file is
version 0; a read failure propagates as VersionReadError (the io::Error
From instance); otherwise the text is trimmed and parsed as i32, a parse
failure propagating as VersionFormatError. -/
def get_current_version (f : VersionFile) : Except UpdateError Int :=
  match f with
  | VersionFile.missing => Except.ok 0
  | VersionFile.unreadable =>
    Except.error (UpdateError.VersionReadError "read failed")
  | VersionFile.content s =>
    match rustParseI32 (rustTrim s) with
    | some v => Except.ok v
    | none => Except.error (UpdateError.VersionFormatError (rustTrim s))

/-- Version the orchestrator loop uses (src/main.rs line 284):
get_current_version(&config).unwrap_or(0). -/
def mainCurrentVersion (f : VersionFile) : Int :=
  match get_current_version f with
  | Except.ok v => v
  | Except.error _ => 0

/-!
Installer runner (run_update_script, src/main.rs lines 65-134).
-/

/-- Environment of one run_update_script call: whether the script file
exists, whether reading its metadata succeeds, whether setting the
execute bits succeeds, whether spawning the child process succeeds, and
whether the process exits with a zero status. -/
structure ScriptEnv where
  scriptExists : Bool
  metadataOk : Bool
  setPermsOk : Bool
  spawnOk : Bool
  exitSuccess : Bool
deriving DecidableEq, Repr

/-- run_update_script (src/main.rs lines 65-134): a missing script is
ScriptError; metadata and permission failures are FileSystemError; a spawn
failure and a nonzero exit status are ScriptError; a zero exit status is
success. -/
def run_update_script (env : ScriptEnv) : Except UpdateError Unit :=
  if !env.scriptExists then
    Except.error (UpdateError.ScriptError "Update script not found")
  else if !env.metadataOk then
    Except.error (UpdateError.FileSystemError "Failed to get metadata for script")
  else if !env.setPermsOk then
    Except.error (UpdateError.FileSystemError
      "Failed to set executable permission on script")
  else if !env.spawnOk then
    Except.error (UpdateError.ScriptError "Failed to execute update script")
  else if env.exitSuccess then Except.ok ()
  else Except.error (UpdateError.ScriptError "Update script failed with status")

/-- Discriminator for the orchestrator's if-let at src/main.rs line 198:
true exactly when the result is Err(UpdateError::ScriptError(_)). -/
def isScriptError : Except UpdateError Unit → Bool
  | Except.error (UpdateError.ScriptError _) => true
  | _ => false

/-- Discriminator for the match at src/main.rs lines 222-229: true exactly
when the download result is Err(UpdateError::TimeoutError). -/
def isTimeoutFailure : Except UpdateError Unit → Bool
  | Except.error UpdateError.TimeoutError => true
  | _ => false

/-!
Cycle orchestrator (run_update_cycle, src/main.rs lines 136-243).
-/

/-- UpdateInfo from src/api_client.rs lines 11-17. -/
structure UpdateInfo where
  version_code : Int
  file_url : String
deriving DecidableEq, Repr

/-- Status report sent in one cycle, indexed by the report_status call
sites in run_update_cycle; every call passes current_version as the
payload versionCode and mentions the remote version in the message. -/
inductive Report where
  | downloaded (payloadVersion msgVersion : Int)
  | extracted (payloadVersion msgVersion : Int)
  | updateFailed (payloadVersion msgVersion : Int)
  | updatedOk (fromVersion toVersion : Int)
deriving DecidableEq, Repr

/-- Environment of one run_update_cycle call: the result of
check_for_updates, the result of download_update (abstracted to its
Except value), the archive source driving unzip_update, the outcomes of
the two cleanup deletions on the archive-error path, and the environment
of the installer script step. -/
structure CycleEnv where
  checkResult : Except UpdateError UpdateInfo
  downloadResult : Except UpdateError Unit
  zipOutcome : ZipSrc
  removeFileOk : Bool
  removeDirOk : Bool
  scriptEnv : ScriptEnv
deriving DecidableEq, Repr

/-- Observable cycle state threaded through run_update_cycle: the poll
interval field of the config, presence of the downloaded archive file and
of the extraction directory, the status reports sent so far, whether a
download was attempted, and whether the installer step was entered. -/
structure CycleState where
  pollInterval : Nat
  archivePresent : Bool
  destDirPresent : Bool
  reports : List Report
  downloadAttempted : Bool
  scriptStepRun : Bool
deriving DecidableEq, Repr

/-- Install phase of the cycle (src/main.rs lines 197-217): the installer
step runs; if and only if it returns Err(ScriptError) the failure report
is sent, any other outcome sends the updated-successfully report. -/
def installPhase (cv ver : Int) (senv : ScriptEnv) (s : CycleState) : CycleState :=
  let s := { s with scriptStepRun := true }
  if isScriptError (run_update_script senv) then
    { s with reports := s.reports ++ [Report.updateFailed cv ver] }
  else
    { s with reports := s.reports ++ [Report.updatedOk cv ver] }

/-- Extraction phase of the cycle (src/main.rs lines 172-219): run
unzip_update; on Err(ArchiveError) delete the archive then the extraction
directory, each deletion failure propagating out of the cycle as the io
From variant VersionReadError; on any other Err only log; on Ok report
extraction and enter the install phase.  Whichever way the phase completes
without a propagated deletion error, the poll interval is set to 300
(line 219). -/
def extractPhase (cv ver : Int) (env : CycleEnv) (s : CycleState) :
    Except UpdateError Unit × CycleState :=
  let u := unzip_update env.zipOutcome
  let s := { s with destDirPresent := s.destDirPresent || !u.2.isEmpty }
  match u.1 with
  | Except.error (UpdateError.ArchiveError _) =>
    if env.removeFileOk then
      let s := { s with archivePresent := false }
      if env.removeDirOk then
        (Except.ok (), { s with destDirPresent := false, pollInterval := 300 })
      else
        (Except.error (UpdateError.VersionReadError "remove_dir_all failed"), s)
    else
      (Except.error (UpdateError.VersionReadError "remove_file failed"), s)
  | Except.error _ => (Except.ok (), { s with pollInterval := 300 })
  | Except.ok _ =>
    let s := { s with reports := s.reports ++ [Report.extracted cv ver] }
    (Except.ok (), { installPhase cv ver env.scriptEnv s with pollInterval := 300 })

/-- Download phase of the cycle (src/main.rs lines 156-232): on download
success the archive is on disk, the downloaded report is sent and the
extraction phase runs; on Err(TimeoutError) the poll interval becomes 1;
on any other download error it becomes 300. -/
def downloadPhase (cv : Int) (info : UpdateInfo) (env : CycleEnv)
    (s : CycleState) : Except UpdateError Unit × CycleState :=
  match env.downloadResult with
  | Except.ok _ =>
    let s := { s with archivePresent := true,
                      reports := s.reports ++ [Report.downloaded cv info.version_code] }
    extractPhase cv info.version_code env s
  | Except.error e =>
    if e = UpdateError.TimeoutError then
      (Except.ok (), { s with pollInterval := 1 })
    else
      (Except.ok (), { s with pollInterval := 300 })

/-- run_update_cycle (src/main.rs lines 136-243): a failed update check
only logs; an advertised version at most the current one is a no-op;
otherwise the download phase runs. -/
def run_update_cycle (cv : Int) (env : CycleEnv) (s : CycleState) :
    Except UpdateError Unit × CycleState :=
  match env.checkResult with
  | Except.error _ => (Except.ok (), s)
  | Except.ok info =>
    if cv < info.version_code then
      downloadPhase cv info env { s with downloadAttempted := true }
    else
      (Except.ok (), s)

/-!
Theorems.  Each claim Cn of the specification is settled by one named
theorem below, with a closed witness instantiating it where the statement
carries hypotheses.
-/

theorem streamLoop_first_error (chunks : List (List Nat)) (msg : String)
    (rest : List (Except String (List Nat))) :
    ∀ acc, streamLoop (chunks.map Except.ok ++ Except.error msg :: rest) true acc =
      (DlOutcome.err (classifyStreamError msg), acc ++ chunks) := by
  induction chunks with
  | nil => intro acc; simp [streamLoop]
  | cons c cs ih =>
    intro acc
    simpa [streamLoop, List.append_assoc] using ih (acc ++ [c])

/-- C4: when the metadata probe yields a known positive total size and the
existing destination file is at least that large, download_update returns
success with no fetch request, no file open and no writes
(src/api_client.rs lines 148-159). -/
theorem download_skips_fetch_when_complete (env : DlEnv) (h : HeadResp)
    (ts : Nat) (hp : env.parentOk = true) (hh : env.headResp = some h)
    (hs : h.statusSuccess = true) (hts : totalSizeOf h = some ts)
    (hpos : 0 < ts) (hex : env.destExists = true) (hm : env.metadataOk = true)
    (hge : ts ≤ env.destLen) :
    download_update env = ⟨DlOutcome.ok, false, false, none, []⟩ := by
  simp [download_update, hp, hh, hs, hts, hex, hm, hge, hpos]

theorem download_skips_fetch_when_complete_witness :
    download_update ⟨true, some ⟨true, some "100", none⟩, true, true, 100, none,
        true, true, false⟩ = ⟨DlOutcome.ok, false, false, none, []⟩ :=
  download_skips_fetch_when_complete _ ⟨true, some "100", none⟩ 100 rfl rfl rfl
    (by decide) (by decide) rfl rfl (by decide)

theorem fetchAndStream_fetchIssued (env : DlEnv) (currentOffset : Nat) :
    (fetchAndStream env currentOffset).fetchIssued = true := by
  cases hg : env.getResp with
  | none => simp [fetchAndStream, hg]
  | some g =>
    simp only [fetchAndStream, hg]
    split
    · rfl
    · split <;> rfl

/-- C8 counterexample: with DEBUG-level logging disabled — the program's
own default, since main.rs lines 256-258 install the filter
embedded_updater=info — a success-status probe without a parseable
x-content-length does not panic: the tracing::debug! field holding the
unwrap at src/api_client.rs line 122 is never evaluated, and
download_update proceeds to issue the fetch with the total size unknown
and completes, falsifying the unconditional-panic claim. -/
theorem download_missing_size_header_cex :
    (download_update ⟨true, some ⟨true, none, some "bytes"⟩, false, true, 0,
        some ⟨200, []⟩, true, true, false⟩).outcome = DlOutcome.ok ∧
    (download_update ⟨true, some ⟨true, none, some "bytes"⟩, false, true, 0,
        some ⟨200, []⟩, true, true, false⟩).fetchIssued = true := by
  exact ⟨by decide, by decide⟩

/-- C8 amended: a success-status metadata probe without a parseable
x-content-length value makes download_update panic — via the unwrap of the
optional total size inside the debug log at src/api_client.rs line 122 —
exactly when DEBUG-level logging is enabled for the callsite, with no
fetch, open or write; when DEBUG is disabled (the program's default filter
embedded_updater=info) the field is never evaluated and the downloader
proceeds with the total size unknown, issuing the fetch request. -/
theorem download_missing_size_header_amended (env : DlEnv) (h : HeadResp)
    (hp : env.parentOk = true) (hh : env.headResp = some h)
    (hs : h.statusSuccess = true) (hts : totalSizeOf h = none) :
    (env.debugLogEnabled = true →
      download_update env = ⟨DlOutcome.panicked, false, false, none, []⟩) ∧
    (env.debugLogEnabled = false →
      (env.destExists = true → env.metadataOk = true) →
      (download_update env).fetchIssued = true) := by
  constructor
  · intro hdbg
    simp [download_update, hp, hh, hs, hts, hdbg]
  · intro hdbg hm
    have hmm : ¬(env.destExists = true ∧ env.metadataOk = false) := by
      rintro ⟨h1, h2⟩
      rw [hm h1] at h2
      exact absurd h2 (by decide)
    simp [download_update, hp, hh, hs, hts, hdbg, hmm, fetchAndStream_fetchIssued]

theorem download_missing_size_header_amended_witness :
    download_update ⟨true, some ⟨true, none, some "bytes"⟩, false, true, 0,
        some ⟨200, []⟩, true, true, true⟩ =
      ⟨DlOutcome.panicked, false, false, none, []⟩ ∧
    (download_update ⟨true, some ⟨true, none, some "bytes"⟩, false, true, 0,
        some ⟨200, []⟩, true, true, false⟩).fetchIssued = true := by
  constructor
  · exact (download_missing_size_header_amended _ ⟨true, none, some "bytes"⟩
      rfl rfl rfl (by decide)).1 rfl
  · exact (download_missing_size_header_amended _ ⟨true, none, some "bytes"⟩
      rfl rfl rfl (by decide)).2 rfl (fun _ => rfl)

/-- C5: branching of download_update on the fetch response status
(src/api_client.rs lines 169-195): a 200 full-content status selects the
truncate-and-write open mode regardless of the prior offset, a 206
partial-content status selects append, and any non-success status fails
with DownloadError before the destination file is opened. -/
theorem download_fetch_status_branching (env : DlEnv) (h : HeadResp)
    (ts : Nat) (g : GetResp) (hp : env.parentOk = true)
    (hh : env.headResp = some h) (hs : h.statusSuccess = true)
    (hts : totalSizeOf h = some ts)
    (hm : env.destExists = true → env.metadataOk = true)
    (hnc : ¬(ts ≤ (if env.destExists then env.destLen else 0) ∧ 0 < ts))
    (hg : env.getResp = some g) :
    (g.status = 200 →
      (download_update env).openMode = some OpenMode.truncateMode) ∧
    (g.status = 206 →
      (download_update env).openMode = some OpenMode.appendMode) ∧
    (¬(200 ≤ g.status ∧ g.status < 300) →
      (download_update env).outcome = DlOutcome.err (UpdateError.DownloadError
        "Download request failed with status") ∧
      (download_update env).openMode = none) := by
  have hmm : ¬(env.destExists = true ∧ env.metadataOk = false) := by
    rintro ⟨h1, h2⟩
    rw [hm h1] at h2
    exact absurd h2 (by decide)
  refine ⟨?_, ?_, ?_⟩
  · intro h200
    cases ho : env.openOk <;>
      simp [download_update, fetchAndStream, hp, hh, hs, hts, hmm, hnc, hg,
        h200, ho]
  · intro h206
    cases ho : env.openOk <;>
      simp [download_update, fetchAndStream, hp, hh, hs, hts, hmm, hnc, hg,
        h206, ho]
  · intro hbad
    have hbad2 : g.status < 200 ∨ 300 ≤ g.status := by
      rcases Nat.lt_or_ge g.status 200 with hlt | hge2
      · exact Or.inl hlt
      · right
        by_contra hcon
        push_neg at hcon
        exact hbad ⟨hge2, hcon⟩
    rcases hbad2 with hlt | hge3
    · simp [download_update, fetchAndStream, hp, hh, hs, hts, hg, hmm, hnc, hlt]
    · simp [download_update, fetchAndStream, hp, hh, hs, hts, hg, hmm, hnc, hge3]

theorem download_fetch_status_branching_witness :
    (download_update ⟨true, some ⟨true, some "5", none⟩, false, true, 0,
        some ⟨200, []⟩, true, true, false⟩).openMode = some OpenMode.truncateMode ∧
    (download_update ⟨true, some ⟨true, some "5", none⟩, false, true, 0,
        some ⟨206, []⟩, true, true, false⟩).openMode = some OpenMode.appendMode ∧
    (download_update ⟨true, some ⟨true, some "5", none⟩, false, true, 0,
        some ⟨404, []⟩, true, true, false⟩).outcome = DlOutcome.err
      (UpdateError.DownloadError "Download request failed with status") :=
  ⟨(download_fetch_status_branching _ ⟨true, some "5", none⟩ 5 ⟨200, []⟩ rfl rfl
      rfl (by decide) (by intro hx; exact absurd hx (by decide)) (by decide) rfl).1 rfl,
   (download_fetch_status_branching _ ⟨true, some "5", none⟩ 5 ⟨206, []⟩ rfl rfl
      rfl (by decide) (by intro hx; exact absurd hx (by decide)) (by decide) rfl).2.1 rfl,
   ((download_fetch_status_branching _ ⟨true, some "5", none⟩ 5 ⟨404, []⟩ rfl rfl
      rfl (by decide) (by intro hx; exact absurd hx (by decide)) (by decide) rfl).2.2
      (by decide)).1⟩

/-- C6: classification of a mid-stream failure while reading the download
body (src/api_client.rs lines 199-206): the result is TimeoutError exactly
when the failure text equals the body-decoding signature, and a generic
DownloadError wrapping the text otherwise. -/
theorem download_stream_error_classification (env : DlEnv) (h : HeadResp)
    (ts : Nat) (g : GetResp) (chunks : List (List Nat)) (msg : String)
    (rest : List (Except String (List Nat))) (hp : env.parentOk = true)
    (hh : env.headResp = some h) (hs : h.statusSuccess = true)
    (hts : totalSizeOf h = some ts)
    (hm : env.destExists = true → env.metadataOk = true)
    (hnc : ¬(ts ≤ (if env.destExists then env.destLen else 0) ∧ 0 < ts))
    (hg : env.getResp = some g) (hst : 200 ≤ g.status ∧ g.status < 300)
    (ho : env.openOk = true) (hw : env.writeOk = true)
    (hbody : g.body = chunks.map Except.ok ++ Except.error msg :: rest) :
    ((download_update env).outcome = DlOutcome.err UpdateError.TimeoutError ↔
      msg = "error decoding response body") ∧
    (msg ≠ "error decoding response body" →
      (download_update env).outcome = DlOutcome.err (UpdateError.DownloadError
        ("Error reading download stream: " ++ msg))) := by
  have hmm : ¬(env.destExists = true ∧ env.metadataOk = false) := by
    rintro ⟨h1, h2⟩
    rw [hm h1] at h2
    exact absurd h2 (by decide)
  have hstF : ¬(g.status < 200 ∨ 300 ≤ g.status) := by
    push_neg
    exact ⟨hst.1, hst.2⟩
  have houtcome : (download_update env).outcome =
      DlOutcome.err (classifyStreamError msg) := by
    simp [download_update, fetchAndStream, hp, hh, hs, hts, hmm, hnc, hg, hstF,
      ho, hw, hbody, streamLoop_first_error]
  constructor
  · rw [houtcome]
    constructor
    · intro heq
      by_contra hne
      have : classifyStreamError msg =
          UpdateError.DownloadError ("Error reading download stream: " ++ msg) := by
        simp [classifyStreamError, hne]
      rw [this] at heq
      exact absurd (by injection heq) (by simp)
    · intro heq
      simp [classifyStreamError, heq]
  · intro hne
    rw [houtcome]
    simp [classifyStreamError, hne]

theorem download_stream_error_classification_witness :
    ((download_update ⟨true, some ⟨true, some "5", none⟩, false, true, 0,
        some ⟨200, [Except.error "error decoding response body"]⟩, true,
        true, false⟩).outcome = DlOutcome.err UpdateError.TimeoutError) ∧
    ((download_update ⟨true, some ⟨true, some "5", none⟩, false, true, 0,
        some ⟨200, [Except.error "connection reset"]⟩, true, true,
        false⟩).outcome =
      DlOutcome.err (UpdateError.DownloadError
        ("Error reading download stream: " ++ "connection reset"))) :=
  ⟨(download_stream_error_classification _ ⟨true, some "5", none⟩ 5 ⟨200,
      [Except.error "error decoding response body"]⟩ [] "error decoding response body"
      [] rfl rfl rfl (by decide) (by intro hx; exact absurd hx (by decide))
      (by decide) rfl (by decide) rfl rfl rfl).1.mpr rfl,
   (download_stream_error_classification _ ⟨true, some "5", none⟩ 5 ⟨200,
      [Except.error "connection reset"]⟩ [] "connection reset"
      [] rfl rfl rfl (by decide) (by intro hx; exact absurd hx (by decide))
      (by decide) rfl (by decide) rfl rfl rfl).2 (by decide)⟩

/-- C1: extraction path-traversal safety (unzip_update, src/main.rs lines
24-58): every filesystem mutation performed while extracting an archive
targets a path that resolves to the destination root extended by some
relative suffix — never a path outside the destination root — and every
entry whose path is rejected by enclosed_name (parent-directory escape,
absolute path, NUL byte) is skipped without any filesystem action. -/
theorem extraction_never_escapes_destination_root (dest : List String)
    (es : List ZipEntryStep) :
    (∀ t ∈ (unzip_update (ZipSrc.entries es)).2,
      ∃ rs, resolvePath dest t.rel = some (dest ++ rs)) ∧
    (∀ st ∈ es, enclosedName st.entry = none → entryActions st.entry = []) := by
  constructor
  · intro t ht
    have hmem := unzipSteps_mem es [] t (by simpa [unzip_update] using ht)
    rcases hmem with hacc | ⟨st, _, hst⟩
    · simp at hacc
    · have hdepth := entryActions_depth hst
      have := resolvePath_keeps_prefix t.rel 0 dest [] (by simp) hdepth
      simpa using this
  · intro st _ hnone
    simp [entryActions, hnone]

theorem extraction_never_escapes_destination_root_witness :
    (∃ rs, resolvePath ["root"] [Comp.normal "a", Comp.parent, Comp.normal "b"] =
      some (["root"] ++ rs)) ∧
    entryActions ⟨false, true, [Comp.normal "evil"], false, none⟩ = [] :=
  ⟨(extraction_never_escapes_destination_root ["root"]
      [⟨true, ⟨false, false, [Comp.normal "a", Comp.parent, Comp.normal "b"],
          false, none⟩⟩,
       ⟨true, ⟨false, true, [Comp.normal "evil"], false, none⟩⟩]).1
      ⟨FsOp.createFile, [Comp.normal "a", Comp.parent, Comp.normal "b"]⟩
      (by decide),
   (extraction_never_escapes_destination_root ["root"]
      [⟨true, ⟨false, false, [Comp.normal "a", Comp.parent, Comp.normal "b"],
          false, none⟩⟩,
       ⟨true, ⟨false, true, [Comp.normal "evil"], false, none⟩⟩]).2
      ⟨true, ⟨false, true, [Comp.normal "evil"], false, none⟩⟩
      (by decide) (by decide)⟩

theorem installPhase_downloadAttempted (cv ver : Int) (senv : ScriptEnv)
    (s : CycleState) :
    (installPhase cv ver senv s).downloadAttempted = s.downloadAttempted := by
  simp only [installPhase]
  split <;> rfl

theorem extractPhase_downloadAttempted (cv ver : Int) (env : CycleEnv)
    (s : CycleState) :
    ((extractPhase cv ver env s).2).downloadAttempted = s.downloadAttempted := by
  cases hu : (unzip_update env.zipOutcome).1 with
  | ok v => simp [extractPhase, hu, installPhase_downloadAttempted]
  | error e =>
    cases e <;>
      simp [extractPhase, hu] <;>
      cases hf : env.removeFileOk <;> cases hd : env.removeDirOk <;> simp [hf, hd]

theorem downloadPhase_downloadAttempted (cv : Int) (info : UpdateInfo)
    (env : CycleEnv) (s : CycleState) :
    ((downloadPhase cv info env s).2).downloadAttempted = s.downloadAttempted := by
  cases hd : env.downloadResult with
  | ok v => simp [downloadPhase, hd, extractPhase_downloadAttempted]
  | error e =>
    by_cases he : e = UpdateError.TimeoutError <;> simp [downloadPhase, hd, he]

theorem cycle_sets_downloadAttempted (cv : Int) (env : CycleEnv)
    (s : CycleState) (info : UpdateInfo)
    (hc : env.checkResult = Except.ok info) (hv : cv < info.version_code) :
    ((run_update_cycle cv env s).2).downloadAttempted = true := by
  simp only [run_update_cycle, hc]
  rw [if_pos hv]
  rw [downloadPhase_downloadAttempted]

theorem extractPhase_poll_of_ok (cv ver : Int) (env : CycleEnv) (s : CycleState)
    (h : (extractPhase cv ver env s).1 = Except.ok ()) :
    ((extractPhase cv ver env s).2).pollInterval = 300 := by
  cases hu : (unzip_update env.zipOutcome).1 with
  | ok v => simp [extractPhase, hu]
  | error e =>
    cases e <;> simp [extractPhase, hu] <;>
      cases hf : env.removeFileOk <;> cases hd : env.removeDirOk <;>
        simp [extractPhase, hu, hf, hd] at h ⊢

theorem isTimeoutFailure_error_iff (e : UpdateError) :
    isTimeoutFailure (Except.error e) = true ↔ e = UpdateError.TimeoutError := by
  cases e <;> simp [isTimeoutFailure]

theorem extractPhase_scriptStepRun_of_err (cv ver : Int) (env : CycleEnv)
    (s : CycleState) (e : UpdateError)
    (hu : (unzip_update env.zipOutcome).1 = Except.error e) :
    ((extractPhase cv ver env s).2).scriptStepRun = s.scriptStepRun := by
  cases e <;> simp [extractPhase, hu] <;>
    cases hf : env.removeFileOk <;> cases hd : env.removeDirOk <;> simp [hf, hd]

theorem extractPhase_cleanup_removes (cv ver : Int) (env : CycleEnv)
    (s : CycleState) (m : String)
    (hu : (unzip_update env.zipOutcome).1 = Except.error (UpdateError.ArchiveError m))
    (hf : env.removeFileOk = true) (hd : env.removeDirOk = true) :
    ((extractPhase cv ver env s).2).archivePresent = false ∧
    ((extractPhase cv ver env s).2).destDirPresent = false := by
  simp [extractPhase, hu, hf, hd]

/-- C7: after a successful update check, the update pipeline (download,
extract, install) runs if and only if the advertised version code is
strictly greater than the current one (src/main.rs line 151); with an
equal or lower advertised version the cycle returns with the state — poll
interval included — completely unchanged (lines 233-235). -/
theorem update_proceeds_iff_newer_version (cv : Int) (env : CycleEnv)
    (s : CycleState) (info : UpdateInfo)
    (hc : env.checkResult = Except.ok info) (ha : s.downloadAttempted = false) :
    (((run_update_cycle cv env s).2).downloadAttempted = true ↔
      cv < info.version_code) ∧
    (¬cv < info.version_code → run_update_cycle cv env s = (Except.ok (), s)) := by
  by_cases hv : cv < info.version_code
  · refine ⟨⟨fun _ => hv, fun _ => cycle_sets_downloadAttempted cv env s info hc hv⟩,
      fun hcon => absurd hv hcon⟩
  · have hrun : run_update_cycle cv env s = (Except.ok (), s) := by
      simp only [run_update_cycle, hc]
      rw [if_neg hv]
    refine ⟨?_, fun _ => hrun⟩
    rw [hrun]
    simp [ha, hv]

theorem update_proceeds_iff_newer_version_witness :
    (((run_update_cycle 5
        ⟨Except.ok ⟨1, "u"⟩, Except.ok (), ZipSrc.entries [], true, true,
          ⟨true, true, true, true, true⟩⟩
        ⟨300, false, false, [], false, false⟩).2).downloadAttempted = true ↔
      (5 : Int) < 1) ∧
    run_update_cycle 5
        ⟨Except.ok ⟨1, "u"⟩, Except.ok (), ZipSrc.entries [], true, true,
          ⟨true, true, true, true, true⟩⟩
        ⟨300, false, false, [], false, false⟩ =
      (Except.ok (), ⟨300, false, false, [], false, false⟩) := by
  have h := update_proceeds_iff_newer_version 5
    ⟨Except.ok ⟨1, "u"⟩, Except.ok (), ZipSrc.entries [], true, true,
      ⟨true, true, true, true, true⟩⟩
    ⟨300, false, false, [], false, false⟩ ⟨1, "u"⟩ rfl rfl
  exact ⟨h.1, h.2 (by decide)⟩

/-- C2 counterexample: an extraction failure whose kind is not
ArchiveError — here the FileSystemError from failing to open the archive
(src/main.rs lines 16-17) — falls into the catch-all arm at lines 181-183,
which only logs: the downloaded archive file is still present after the
cycle, so cleanup does not happen for every extraction failure kind. -/
theorem extraction_failure_cleanup_cex :
    (unzip_update ZipSrc.openFail).1 =
      Except.error (UpdateError.FileSystemError "Failed to open zipped files") ∧
    ((run_update_cycle 1
        ⟨Except.ok ⟨2, "u"⟩, Except.ok (), ZipSrc.openFail, true, true,
          ⟨true, true, true, true, true⟩⟩
        ⟨300, true, false, [], false, false⟩).2).archivePresent = true :=
  ⟨rfl, by decide⟩

/-- C2 amended: in every cycle in which extraction fails the installer
script step is not entered; and when the extraction failure is an
ArchiveError and both cleanup deletions succeed, the downloaded archive
file and the destination extraction directory are absent afterwards
(src/main.rs lines 174-184).  Extraction failures of any other kind (the
FileSystemError from a failed archive open) leave both in place, and a
failed deletion aborts the cycle with the io error. -/
theorem extraction_failure_cleanup_amended (cv : Int) (env : CycleEnv)
    (s : CycleState) (info : UpdateInfo) (e : UpdateError)
    (hc : env.checkResult = Except.ok info) (hv : cv < info.version_code)
    (hd : env.downloadResult = Except.ok ())
    (hu : (unzip_update env.zipOutcome).1 = Except.error e) :
    ((run_update_cycle cv env s).2).scriptStepRun = s.scriptStepRun ∧
    (∀ m, e = UpdateError.ArchiveError m → env.removeFileOk = true →
      env.removeDirOk = true →
      ((run_update_cycle cv env s).2).archivePresent = false ∧
      ((run_update_cycle cv env s).2).destDirPresent = false) := by
  simp only [run_update_cycle, hc]
  rw [if_pos hv]
  simp only [downloadPhase, hd]
  constructor
  · rw [extractPhase_scriptStepRun_of_err _ _ _ _ e hu]
  · intro m hm hf hd2
    subst hm
    exact extractPhase_cleanup_removes _ _ _ _ m hu hf hd2

theorem extraction_failure_cleanup_amended_witness :
    ((run_update_cycle 1
        ⟨Except.ok ⟨2, "u"⟩, Except.ok (), ZipSrc.badArchive, true, true,
          ⟨true, true, true, true, true⟩⟩
        ⟨300, true, true, [], false, false⟩).2).scriptStepRun = false ∧
    ((run_update_cycle 1
        ⟨Except.ok ⟨2, "u"⟩, Except.ok (), ZipSrc.badArchive, true, true,
          ⟨true, true, true, true, true⟩⟩
        ⟨300, true, true, [], false, false⟩).2).archivePresent = false ∧
    ((run_update_cycle 1
        ⟨Except.ok ⟨2, "u"⟩, Except.ok (), ZipSrc.badArchive, true, true,
          ⟨true, true, true, true, true⟩⟩
        ⟨300, true, true, [], false, false⟩).2).destDirPresent = false := by
  have h := extraction_failure_cleanup_amended 1
    ⟨Except.ok ⟨2, "u"⟩, Except.ok (), ZipSrc.badArchive, true, true,
      ⟨true, true, true, true, true⟩⟩
    ⟨300, true, true, [], false, false⟩ ⟨2, "u"⟩
    (UpdateError.ArchiveError "Failed to extract zipped files") rfl (by decide)
    rfl rfl
  have h2 := h.2 "Failed to extract zipped files" rfl rfl rfl
  exact ⟨h.1, h2.1, h2.2⟩

/-- Environment for the C3 counterexample: the download succeeds, the
archive is corrupt, deleting the archive succeeds but deleting the
extraction directory fails, so the question-mark at src/main.rs line 179
aborts the cycle before line 219 resets the interval. -/
def pollCexEnv : CycleEnv :=
  ⟨Except.ok ⟨2, "u"⟩, Except.ok (), ZipSrc.badArchive, true, false,
    ⟨true, true, true, true, true⟩⟩

/-- Prior state for the C3 counterexample: the previous cycle had set the
fast-retry interval of 1 second. -/
def pollCexState : CycleState := ⟨1, true, false, [], false, false⟩

/-- C3 counterexample: a cycle that attempted (and completed) its download
can still end with the poll interval equal to the fast-retry value 1
without any timeout classification: when extraction fails with
ArchiveError and the cleanup deletion of the extraction directory fails,
the cycle aborts before the interval assignment at src/main.rs line 219
and the prior fast-retry interval survives, falsifying the claimed
if-and-only-if. -/
theorem poll_interval_timeout_iff_cex :
    ((run_update_cycle 1 pollCexEnv pollCexState).2).pollInterval = 1 ∧
    ((run_update_cycle 1 pollCexEnv pollCexState).2).downloadAttempted = true ∧
    isTimeoutFailure pollCexEnv.downloadResult = false := by decide

/-- C3 amended: in every cycle that attempted a download and ran to
completion (no propagated cleanup error), the next poll interval is the
fast-retry value 1 if and only if the download failed with the timeout
classification, and after a completed install attempt or any non-timeout
download failure it is the default 300 (src/main.rs lines 219-231); a
cycle aborted by a cleanup failure leaves the interval unchanged. -/
theorem poll_interval_timeout_iff_amended (cv : Int) (env : CycleEnv)
    (s : CycleState) (info : UpdateInfo)
    (hc : env.checkResult = Except.ok info) (hv : cv < info.version_code)
    (hok : (run_update_cycle cv env s).1 = Except.ok ()) :
    (((run_update_cycle cv env s).2).pollInterval = 1 ↔
      isTimeoutFailure env.downloadResult = true) ∧
    (isTimeoutFailure env.downloadResult = false →
      ((run_update_cycle cv env s).2).pollInterval = 300) := by
  simp only [run_update_cycle, hc] at hok ⊢
  rw [if_pos hv] at hok ⊢
  cases hdl : env.downloadResult with
  | ok v =>
    cases v
    simp only [downloadPhase, hdl] at hok ⊢
    have h300 := extractPhase_poll_of_ok _ _ _ _ hok
    rw [h300]
    simp [isTimeoutFailure]
  | error e =>
    by_cases he : e = UpdateError.TimeoutError
    · subst he
      simp [downloadPhase, hdl, isTimeoutFailure]
    · simp [downloadPhase, hdl, he, isTimeoutFailure_error_iff]

def pollTimeoutEnv : CycleEnv :=
  ⟨Except.ok ⟨2, "u"⟩, Except.error UpdateError.TimeoutError, ZipSrc.entries [],
    true, true, ⟨true, true, true, true, true⟩⟩

def pollOkEnv : CycleEnv :=
  ⟨Except.ok ⟨2, "u"⟩, Except.ok (), ZipSrc.entries [], true, true,
    ⟨true, true, true, true, true⟩⟩

def pollWitnessState : CycleState := ⟨300, false, false, [], false, false⟩

theorem poll_interval_timeout_iff_amended_witness :
    ((run_update_cycle 1 pollTimeoutEnv pollWitnessState).2).pollInterval = 1 ∧
    ((run_update_cycle 1 pollOkEnv pollWitnessState).2).pollInterval = 300 := by
  constructor
  · exact (poll_interval_timeout_iff_amended 1 pollTimeoutEnv pollWitnessState
      ⟨2, "u"⟩ rfl (by decide) (by decide)).1.mpr (by decide)
  · exact (poll_interval_timeout_iff_amended 1 pollOkEnv pollWitnessState
      ⟨2, "u"⟩ rfl (by decide) (by decide)).2 (by decide)

/-- C9: when the cycle reaches the installer step, the orchestrator's
if-let at src/main.rs lines 198-217 sends the updated-successfully report
exactly when the installer step does not return Err(ScriptError) — so a
zero-exit run, but also a FileSystemError from the metadata or chmod step
of run_update_script (lines 84-97), produces the success report — and
sends the failure report exactly when the step returns Err(ScriptError). -/
theorem installer_report_success_iff_not_script_error (cv : Int)
    (env : CycleEnv) (s : CycleState) (info : UpdateInfo)
    (hc : env.checkResult = Except.ok info) (hv : cv < info.version_code)
    (hd : env.downloadResult = Except.ok ())
    (hu : (unzip_update env.zipOutcome).1 = Except.ok ())
    (hr : s.reports = []) :
    (Report.updatedOk cv info.version_code ∈
        ((run_update_cycle cv env s).2).reports ↔
      isScriptError (run_update_script env.scriptEnv) = false) ∧
    (Report.updateFailed cv info.version_code ∈
        ((run_update_cycle cv env s).2).reports ↔
      isScriptError (run_update_script env.scriptEnv) = true) ∧
    (env.scriptEnv.scriptExists = true → env.scriptEnv.metadataOk = false →
      Report.updatedOk cv info.version_code ∈
        ((run_update_cycle cv env s).2).reports) := by
  simp only [run_update_cycle, hc]
  rw [if_pos hv]
  simp only [downloadPhase, hd]
  simp only [extractPhase, hu]
  by_cases hse : isScriptError (run_update_script env.scriptEnv) = true
  · refine ⟨?_, ?_, ?_⟩
    · simp [installPhase, hse, hr]
    · simp [installPhase, hse, hr]
    · intro hex hmf
      have hfs : isScriptError (run_update_script env.scriptEnv) = false := by
        simp [run_update_script, hex, hmf, isScriptError]
      rw [hfs] at hse
      exact absurd hse (by decide)
  · have hse2 : isScriptError (run_update_script env.scriptEnv) = false := by
      cases hx : isScriptError (run_update_script env.scriptEnv) with
      | false => rfl
      | true => exact absurd hx hse
    refine ⟨?_, ?_, ?_⟩
    · simp [installPhase, hse2, hr]
    · simp [installPhase, hse2, hr]
    · intro _ _
      simp [installPhase, hse2, hr]

def reportWitnessEnv : CycleEnv :=
  ⟨Except.ok ⟨2, "u"⟩, Except.ok (), ZipSrc.entries [], true, true,
    ⟨true, false, true, true, true⟩⟩

def reportWitnessState : CycleState := ⟨300, false, false, [], false, false⟩

theorem installer_report_success_iff_not_script_error_witness :
    Report.updatedOk 1 2 ∈
      ((run_update_cycle 1 reportWitnessEnv reportWitnessState).2).reports :=
  (installer_report_success_iff_not_script_error 1 reportWitnessEnv
    reportWitnessState ⟨2, "u"⟩ rfl (by decide) rfl rfl rfl).2.2 rfl rfl

/-- C10: every failure of get_current_version — an unreadable version
file or non-integer content, in addition to the missing-file case that
already returns 0 — is collapsed to current version 0 by the unwrap_or(0)
at src/main.rs line 284, so a cycle whose check advertises any positive
version code then enters the download phase. -/
theorem version_read_failure_defaults_to_zero (f : VersionFile)
    (hf : f = VersionFile.missing ∨
      ∃ e, get_current_version f = Except.error e) :
    mainCurrentVersion f = 0 ∧
    ∀ (env : CycleEnv) (s : CycleState) (info : UpdateInfo),
      env.checkResult = Except.ok info → 0 < info.version_code →
      ((run_update_cycle (mainCurrentVersion f) env s).2).downloadAttempted =
        true := by
  have h0 : mainCurrentVersion f = 0 := by
    rcases hf with hmiss | ⟨e, herr⟩
    · rw [hmiss]; rfl
    · simp [mainCurrentVersion, herr]
  refine ⟨h0, ?_⟩
  intro env s info hc hpos
  exact cycle_sets_downloadAttempted (mainCurrentVersion f) env s info hc
    (by rw [h0]; exact hpos)

def versionWitnessEnv : CycleEnv :=
  ⟨Except.ok ⟨2, "u"⟩, Except.ok (), ZipSrc.entries [], true, true,
    ⟨true, true, true, true, true⟩⟩

def versionWitnessState : CycleState := ⟨300, false, false, [], false, false⟩

theorem version_read_failure_defaults_to_zero_witness :
    mainCurrentVersion (VersionFile.content "abc") = 0 ∧
    ((run_update_cycle (mainCurrentVersion (VersionFile.content "abc"))
        versionWitnessEnv versionWitnessState).2).downloadAttempted = true := by
  have h := version_read_failure_defaults_to_zero (VersionFile.content "abc")
    (Or.inr ⟨UpdateError.VersionFormatError "abc", by decide⟩)
  exact ⟨h.1, h.2 versionWitnessEnv versionWitnessState ⟨2, "u"⟩ rfl (by decide)⟩
